import Mathlib

/-!
Verification of the TCAnnex PDF highlight extractor
(`extract_highlights.py`) against its specification.

The extractor is shallowly embedded: coordinates and color channels are
rationals, words/annotations/pages are structures, the per-page and
per-annotation control flow is explicit, and every external effect
(opening the document, fetching a page's annotations, fetching the word
inventory) is supplied as input data.

Arithmetic on `ℚ` inside the embedded program uses kernel-reducible
wrappers (`qadd`, `qsub`, `qmul`, ...) built on `mkRat`, so that every
embedded function can be evaluated on concrete inputs by `decide`;
bridge lemmas identify them with Mathlib's field operations.
-/

namespace TCAnnex

/-! ### Kernel-reducible rational arithmetic -/

/-- Executable addition on `ℚ`. -/
def qadd (a b : ℚ) : ℚ := mkRat (a.num * b.den + b.num * a.den) (a.den * b.den)

/-- Executable subtraction on `ℚ`. -/
def qsub (a b : ℚ) : ℚ := mkRat (a.num * b.den - b.num * a.den) (a.den * b.den)

/-- Executable multiplication on `ℚ`. -/
def qmul (a b : ℚ) : ℚ := mkRat (a.num * b.num) (a.den * b.den)

/-- Executable minimum on `ℚ`. -/
def qmin (a b : ℚ) : ℚ := if a ≤ b then a else b

/-- Executable maximum on `ℚ`. -/
def qmax (a b : ℚ) : ℚ := if a ≤ b then b else a

/-- Executable absolute value on `ℚ`. -/
def qabs (a : ℚ) : ℚ := if a < 0 then -a else a

theorem qadd_eq (a b : ℚ) : qadd a b = a + b := (Rat.add_def' a b).symm

theorem qsub_eq (a b : ℚ) : qsub a b = a - b := (Rat.sub_def' a b).symm

theorem qmul_eq (a b : ℚ) : qmul a b = a * b := by
  rw [show a * b = Rat.normalize (a.num * b.num) (a.den * b.den)
        (Nat.mul_ne_zero a.den_nz b.den_nz) from Rat.mul_def a b,
      Rat.normalize_eq_mkRat]
  rfl

theorem qmin_eq (a b : ℚ) : qmin a b = min a b := (min_def a b).symm

theorem qmax_eq (a b : ℚ) : qmax a b = max a b := (max_def a b).symm

theorem qabs_eq (a : ℚ) : qabs a = |a| := by
  unfold qabs
  rcases lt_or_le a 0 with h | h
  · rw [if_pos h, abs_of_neg h]
  · rw [if_neg (not_lt.mpr h), abs_of_nonneg h]

theorem mkRat_div (n : ℤ) (d : ℕ) : mkRat n d = (n : ℚ) / (d : ℚ) := by
  rw [Rat.mkRat_eq_divInt, Rat.divInt_eq_div]
  norm_num

/-! ### Geometry: rectangles, quads, word containment -/

/-- A 2-D point with rational coordinates (one vertex of a highlight quad). -/
structure Point where
  x : ℚ
  y : ℚ
deriving DecidableEq

/-- An axis-aligned rectangle, as the external PDF layer's `Rect`
(`x0,y0` top-left corner, `x1,y1` bottom-right corner). -/
structure Rect where
  x0 : ℚ
  y0 : ℚ
  x1 : ℚ
  y1 : ℚ
deriving DecidableEq

/-- Modelled from the spec: the external PDF layer's rectangle area
(`Rect.get_area`); a degenerate/empty rectangle has zero area, so the
area of the intersection of two rectangles is their genuine geometric
overlap. -/
def Rect.get_area (r : Rect) : ℚ :=
  if r.x0 < r.x1 ∧ r.y0 < r.y1 then qmul (qsub r.x1 r.x0) (qsub r.y1 r.y0) else 0

/-- Modelled from the spec: the external PDF layer's `Rect.intersect`
(component-wise max of top-left corners, min of bottom-right corners). -/
def Rect.intersect (r s : Rect) : Rect :=
  ⟨qmax r.x0 s.x0, qmax r.y0 s.y0, qmin r.x1 s.x1, qmin r.y1 s.y1⟩

/-- Modelled from the spec: `fitz.Quad(points).rect`, the smallest
axis-aligned rectangle containing the quad's four corner points.
Callers in this program always pass exactly four points; other arities
(on which the external layer would error) fall back to a zero rect. -/
def quadRect : List Point → Rect
  | [p1, p2, p3, p4] =>
    ⟨qmin (qmin p1.x p2.x) (qmin p3.x p4.x),
     qmin (qmin p1.y p2.y) (qmin p3.y p4.y),
     qmax (qmax p1.x p2.x) (qmax p3.x p4.x),
     qmax (qmax p1.y p2.y) (qmax p3.y p4.y)⟩
  | _ => ⟨0, 0, 0, 0⟩

/-- `_threshold_intersection = 0.6`. -/
def threshold_intersection : ℚ := mkRat 6 10

/-- `_check_contain(r_word, points)`: the quad's bounding rectangle is
intersected with the word's rectangle, and the word counts as contained
when the intersection area is at least `0.6 *` the word's own area. -/
def check_contain (r_word : Rect) (points : List Point) : Bool :=
  decide (((quadRect points).intersect r_word).get_area ≥
    qmul r_word.get_area threshold_intersection)

/-- Spec-side notion: the geometric overlap area of two axis-aligned
rectangles, written directly with Mathlib's field and order operations
(positive overlap in both axes, else zero). -/
def rectOverlapArea (a b : Rect) : ℚ :=
  if max a.x0 b.x0 < min a.x1 b.x1 ∧ max a.y0 b.y0 < min a.y1 b.y1 then
    (min a.x1 b.x1 - max a.x0 b.x0) * (min a.y1 b.y1 - max a.y0 b.y0)
  else 0

theorem get_area_intersect_eq_overlap (a b : Rect) :
    (a.intersect b).get_area = rectOverlapArea a b := by
  unfold Rect.intersect Rect.get_area rectOverlapArea
  simp only [qmin_eq, qmax_eq, qsub_eq, qmul_eq]

/-- C1: a word is contained in a quad iff the geometric overlap area of
the word's rectangle with the quad's bounding rectangle is at least
`0.6` times the word's own area; the threshold is inclusive (a word
with exactly 60% of its area overlapped is contained) and 59% overlap
is not contained. -/
theorem contain_iff_overlap_ge_threshold :
    (∀ (w : Rect) (pts : List Point),
        check_contain w pts = true ↔
          rectOverlapArea (quadRect pts) w ≥ (6 / 10) * w.get_area)
    ∧ check_contain ⟨0, 0, 10, 10⟩
        [⟨0, 0⟩, ⟨10, 0⟩, ⟨0, 6⟩, ⟨10, 6⟩] = true
    ∧ check_contain ⟨0, 0, 10, 10⟩
        [⟨0, 0⟩, ⟨10, 0⟩, ⟨0, mkRat 59 10⟩, ⟨10, mkRat 59 10⟩] = false := by
  refine ⟨fun w pts => ?_, by decide, by decide⟩
  unfold check_contain
  rw [get_area_intersect_eq_overlap, decide_eq_true_eq, qmul_eq]
  have ht : threshold_intersection = 6 / 10 := by
    unfold threshold_intersection; rw [mkRat_div]; norm_num
  rw [ht, mul_comm]

/-! ### Containment resolver: `_extract_annot` -/

/-- A word of the page inventory, as produced by the external text
layer: bounding box `(x0, y0, x1, y1)` plus the token string
(`w[:4]` and `w[4]` in the source). -/
structure Word where
  x0 : ℚ
  y0 : ℚ
  x1 : ℚ
  y1 : ℚ
  text : String
deriving DecidableEq

/-- `fitz.Rect(w[:4])`: the bounding rectangle of a word. -/
def wordRect (w : Word) : Rect := ⟨w.x0, w.y0, w.x1, w.y1⟩

/-- Python's `sep.join(strings)`. -/
def joinWith (sep : String) : List String → String
  | [] => ""
  | [s] => s
  | s :: rest => s ++ sep ++ joinWith sep rest

/-- `_extract_annot(annot, words_on_page)`: the annotation's vertex
list is cut into consecutive groups of four points (one per quad); for
each quad the contained words are joined with single spaces in page
inventory order, and the per-quad fragments are joined with single
spaces in quad index order. -/
def extract_annot (quad_points : List Point) (words_on_page : List Word) : String :=
  joinWith " " ((List.range (quad_points.length / 4)).map (fun i =>
    joinWith " " ((words_on_page.filter (fun w =>
      check_contain (wordRect w) ((quad_points.drop (i * 4)).take 4))).map
        Word.text)))

/-- Two quads placed far from the origin: no word can be contained in
either when the page has no words at all. -/
def twoEmptyQuads : List Point :=
  [⟨100, 100⟩, ⟨110, 100⟩, ⟨100, 110⟩, ⟨110, 110⟩,
   ⟨100, 200⟩, ⟨110, 200⟩, ⟨100, 210⟩, ⟨110, 210⟩]

/-- C2 counterexample: an annotation with two quads, none of which
contains any word (the page word list is empty), resolves to a single
space — not to the empty string. -/
theorem extract_annot_two_empty_quads_ne_empty :
    extract_annot twoEmptyQuads [] ≠ "" := by decide

theorem joinWith_space_replicate_empty (k : Nat) :
    joinWith " " (List.replicate k "") = String.mk (List.replicate (k - 1) ' ') := by
  induction k with
  | zero => rfl
  | succ n ih =>
    cases n with
    | zero => rfl
    | succ m =>
      rw [List.replicate_succ, joinWith, ih]
      · rfl
      · exact fun h => by simp [List.replicate] at h

/-- C2 amended: if no word is contained in any quad, the resolver
returns a string of `K - 1` space characters, where `K` is the number
of quads (`vertex count / 4`) -- so the result is empty only when the
annotation has at most one quad; an annotation with an empty quad list
always yields the empty string.  The resolver is a total function, so
no error is possible. -/
theorem extract_annot_no_contained_words :
    (∀ (quad_points : List Point) (words_on_page : List Word),
      (∀ w ∈ words_on_page, ∀ i < quad_points.length / 4,
        check_contain (wordRect w) ((quad_points.drop (i * 4)).take 4) = false) →
      extract_annot quad_points words_on_page =
        String.mk (List.replicate (quad_points.length / 4 - 1) ' '))
    ∧ (∀ words_on_page, extract_annot [] words_on_page = "") := by
  refine ⟨fun quad_points words_on_page h => ?_, fun words_on_page => rfl⟩
  unfold extract_annot
  rw [← joinWith_space_replicate_empty]
  congr 1
  rw [List.eq_replicate_iff]
  refine ⟨by rw [List.length_map, List.length_range], ?_⟩
  intro b hb
  rw [List.mem_map] at hb
  obtain ⟨i, hi, rfl⟩ := hb
  rw [List.mem_range] at hi
  have hfilter : words_on_page.filter
      (fun w => check_contain (wordRect w) ((quad_points.drop (i * 4)).take 4)) = [] := by
    rw [List.filter_eq_nil_iff]
    intro w hw
    simp only [h w hw i hi, Bool.false_eq_true, not_false_eq_true]
  rw [hfilter]
  rfl

/-- C2 amended, witness: at the concrete two-quad annotation over an
empty word list the hypothesis holds vacuously and the resolver yields
exactly one space. -/
theorem extract_annot_no_contained_words_witness :
    extract_annot twoEmptyQuads [] = String.mk (List.replicate 1 ' ') :=
  extract_annot_no_contained_words.1 twoEmptyQuads [] (by intro w hw; cases hw)

theorem length_flattenQuads (qs : List (List Point)) (h : ∀ q ∈ qs, q.length = 4) :
    qs.flatten.length = 4 * qs.length := by
  induction qs with
  | nil => rfl
  | cons q rest ih =>
    rw [List.flatten_cons, List.length_append, h q (List.mem_cons_self q rest),
      ih (fun p hp => h p (List.mem_cons_of_mem q hp)), List.length_cons]
    ring

theorem sliceQuads (qs : List (List Point)) (h : ∀ q ∈ qs, q.length = 4) :
    (List.range (qs.flatten.length / 4)).map
      (fun i => (qs.flatten.drop (i * 4)).take 4) = qs := by
  induction qs with
  | nil => rfl
  | cons q rest ih =>
    have hq : q.length = 4 := h q (List.mem_cons_self q rest)
    have hrest : ∀ p ∈ rest, p.length = 4 := fun p hp => h p (List.mem_cons_of_mem q hp)
    have hlen : (q :: rest).flatten.length / 4 = rest.flatten.length / 4 + 1 := by
      rw [length_flattenQuads _ h, length_flattenQuads _ hrest, List.length_cons]
      omega
    rw [hlen, List.range_succ_eq_map, List.map_cons, List.map_map]
    congr 1
    · rw [Nat.zero_mul, List.drop_zero, List.flatten_cons,
        List.take_append_of_le_length (Nat.le_of_eq hq.symm), ← hq, List.take_length]
    · have hmap : List.map
          ((fun i => ((q :: rest).flatten.drop (i * 4)).take 4) ∘ Nat.succ)
          (List.range (rest.flatten.length / 4)) =
          List.map (fun i => (rest.flatten.drop (i * 4)).take 4)
            (List.range (rest.flatten.length / 4)) := by
        apply List.map_congr_left
        intro i _
        simp only [Function.comp_apply, List.flatten_cons]
        rw [show Nat.succ i * 4 = 4 + i * 4 by omega, ← List.drop_drop,
          show (4 : Nat) = q.length from hq.symm, List.drop_left]
      rw [hmap, ih hrest]

/-- C3: for an annotation whose vertex list is the concatenation of
`K ≥ 1` four-point quads, the resolver output is the per-quad fragments
joined by single spaces in quad index order, each fragment being the
contained words' tokens joined by single spaces in page inventory
order. -/
theorem extract_annot_eq_joined_fragments (qs : List (List Point))
    (ws : List Word) (hlen : ∀ q ∈ qs, q.length = 4) (hne : qs ≠ []) :
    extract_annot qs.flatten ws =
      joinWith " " (qs.map (fun q =>
        joinWith " " ((ws.filter (fun w => check_contain (wordRect w) q)).map
          Word.text))) := by
  unfold extract_annot
  conv_rhs => rw [← sliceQuads qs hlen]
  rw [List.map_map]
  rfl

/-- First line's quad of the concrete two-line highlight. -/
def c3quad1 : List Point := [⟨0, 0⟩, ⟨20, 0⟩, ⟨0, 10⟩, ⟨20, 10⟩]

/-- Second line's quad of the concrete two-line highlight. -/
def c3quad2 : List Point := [⟨0, 20⟩, ⟨20, 20⟩, ⟨0, 30⟩, ⟨20, 30⟩]

/-- Page inventory for the concrete two-line highlight: one word on
each line. -/
def c3words : List Word :=
  [⟨0, 0, 10, 10, "hello"⟩, ⟨0, 20, 10, 30, "world"⟩]

/-- C3 witness: a concrete two-quad annotation over two words, one per
quad, resolves to the two fragments joined by a single space. -/
theorem extract_annot_eq_joined_fragments_witness :
    (∀ q ∈ [c3quad1, c3quad2], q.length = 4) ∧
    extract_annot ([c3quad1, c3quad2] : List (List Point)).flatten c3words =
      joinWith " " (([c3quad1, c3quad2] : List (List Point)).map (fun q =>
        joinWith " " ((c3words.filter (fun w => check_contain (wordRect w) q)).map
          Word.text))) :=
  ⟨by decide, extract_annot_eq_joined_fragments [c3quad1, c3quad2] c3words
    (by decide) (by decide)⟩

/-! ### Color normalization and classification -/

/-- Executable round-to-nearest-integer on `ℚ` (half rounds up), used
to model Python's `round`. -/
def qround (x : ℚ) : ℤ :=
  (2 * x.num + (x.den : ℤ)) / ((2 * x.den : ℕ) : ℤ)

theorem qround_eq_round (x : ℚ) : qround x = round x := by
  rw [round_eq]
  have hd : ((x.den : ℚ)) ≠ 0 := by
    exact_mod_cast x.den_nz
  have hx : x + 1 / 2 =
      ((2 * x.num + (x.den : ℤ) : ℤ) : ℚ) / (((2 * x.den : ℕ)) : ℚ) := by
    conv_lhs => rw [← Rat.num_div_den x]
    push_cast
    field_simp
    ring
  rw [hx, Rat.floor_intCast_div_natCast]
  rfl

/-- Python's `round(c, 2)`: round to two decimal places. On the exact
two-decimal values relevant to the legend table the tie-breaking
convention never fires, so round-half-up is a faithful model. -/
def round2 (x : ℚ) : ℚ := mkRat (qround (qmul x 100)) 100

theorem round2_eq (x : ℚ) : round2 x = ((round (x * 100) : ℤ) : ℚ) / 100 := by
  unfold round2
  rw [qround_eq_round, qmul_eq, mkRat_div]
  norm_num

theorem round2_mem_unit (x : ℚ) (h0 : 0 ≤ x) (h1 : x ≤ 1) :
    0 ≤ round2 x ∧ round2 x ≤ 1 := by
  rw [round2_eq, round_eq]
  have hlo : (0 : ℤ) ≤ ⌊x * 100 + 1 / 2⌋ := by
    rw [show (0 : ℤ) = ⌊(1 / 2 : ℚ)⌋ by norm_num]
    apply Int.floor_mono
    nlinarith
  have hhi : ⌊x * 100 + 1 / 2⌋ ≤ 100 := by
    rw [show (100 : ℤ) = ⌊(100 + 1 / 2 : ℚ)⌋ by norm_num]
    apply Int.floor_mono
    nlinarith
  constructor
  · positivity
  · rw [div_le_one (by norm_num)]
    exact_mod_cast hhi

/-- `normalize_color(color)`: three or more channels keep the first
three, each rounded to two decimals; a single grayscale channel is
broadcast to three rounded copies; anything else (no channels at all,
or exactly two) becomes black `(0, 0, 0)`. -/
def normalize_color (color : List ℚ) : List ℚ :=
  if color.isEmpty then [0, 0, 0]
  else if 3 ≤ color.length then (color.take 3).map round2
  else if color.length = 1 then
    [round2 (color.headD 0), round2 (color.headD 0), round2 (color.headD 0)]
  else [0, 0, 0]

theorem normalize_color_length (color : List ℚ) :
    (normalize_color color).length = 3 := by
  unfold normalize_color
  split_ifs with h1 h2 h3
  · rfl
  · rw [List.length_map, List.length_take]
    omega
  · rfl
  · rfl

/-- C6: under the documented precondition that source channels lie in
`[0, 1]`, normalization yields exactly three channel values in `[0, 1]`;
three or more channels keep the first three rounded to two decimals, a
single grayscale channel is broadcast to three equal rounded copies, an
absent (empty) color is treated as `(0, 0, 0)`; `round2` is rounding to
two decimal places, and grayscale `0.5` normalizes to
`(0.5, 0.5, 0.5)`. -/
theorem normalize_color_spec :
    (∀ color : List ℚ, (∀ x ∈ color, 0 ≤ x ∧ x ≤ 1) →
      (normalize_color color).length = 3
      ∧ (∀ y ∈ normalize_color color, 0 ≤ y ∧ y ≤ 1)
      ∧ (3 ≤ color.length → normalize_color color = (color.take 3).map round2)
      ∧ (color.length = 1 →
          normalize_color color = List.replicate 3 (round2 (color.headD 0)))
      ∧ (color = [] → normalize_color color = [0, 0, 0]))
    ∧ (∀ x : ℚ, round2 x = ((round (x * 100) : ℤ) : ℚ) / 100)
    ∧ normalize_color [mkRat 1 2] = [mkRat 1 2, mkRat 1 2, mkRat 1 2] := by
  refine ⟨fun color hb => ⟨normalize_color_length color, ?_, ?_, ?_, ?_⟩,
    round2_eq, by decide⟩
  · intro y hy
    unfold normalize_color at hy
    split_ifs at hy with h1 h2 h3
    · simp only [List.mem_cons, List.not_mem_nil, or_false] at hy
      rcases hy with rfl | rfl | rfl <;> exact ⟨le_refl 0, zero_le_one⟩
    · rw [List.mem_map] at hy
      obtain ⟨x, hx, rfl⟩ := hy
      have hxc : x ∈ color := List.mem_of_mem_take hx
      exact round2_mem_unit x (hb x hxc).1 (hb x hxc).2
    · have hhead : color.headD 0 ∈ color := by
        cases color with
        | nil => simp at h1
        | cons a t => exact List.mem_cons_self a t
      simp only [List.mem_cons, List.not_mem_nil, or_false] at hy
      rcases hy with rfl | rfl | rfl <;>
        exact round2_mem_unit _ (hb _ hhead).1 (hb _ hhead).2
    · simp only [List.mem_cons, List.not_mem_nil, or_false] at hy
      rcases hy with rfl | rfl | rfl <;> exact ⟨le_refl 0, zero_le_one⟩
  · intro h3
    unfold normalize_color
    rw [if_neg, if_pos h3]
    intro he
    rw [List.isEmpty_iff] at he
    subst he
    simp at h3
  · intro h1
    unfold normalize_color
    rw [if_neg, if_neg, if_pos h1]
    · rfl
    · omega
    · intro he
      rw [List.isEmpty_iff] at he
      subst he
      simp at h1
  · intro he
    subst he
    rfl

/-- C6 witness: at grayscale `[1/2]` the precondition holds and all
conclusions are concrete. -/
theorem normalize_color_spec_witness :
    (normalize_color [mkRat 1 2]).length = 3
    ∧ (∀ y ∈ normalize_color [mkRat 1 2], 0 ≤ y ∧ y ≤ 1)
    ∧ (3 ≤ ([mkRat 1 2] : List ℚ).length →
        normalize_color [mkRat 1 2] = (([mkRat 1 2] : List ℚ).take 3).map round2)
    ∧ (([mkRat 1 2] : List ℚ).length = 1 →
        normalize_color [mkRat 1 2] =
          List.replicate 3 (round2 (([mkRat 1 2] : List ℚ).headD 0)))
    ∧ (([mkRat 1 2] : List ℚ) = [] → normalize_color [mkRat 1 2] = [0, 0, 0]) :=
  normalize_color_spec.1 [mkRat 1 2] (by decide)

/-- C10: a two-channel color is mapped to black `(0, 0, 0)` — neither
truncated nor broadcast. -/
theorem normalize_color_two_channels (color : List ℚ)
    (h : color.length = 2) : normalize_color color = [0, 0, 0] := by
  unfold normalize_color
  rw [if_neg, if_neg, if_neg]
  · omega
  · omega
  · intro he
    rw [List.isEmpty_iff] at he
    subst he
    simp at h

/-- C10 witness: the concrete two-channel color `(0.3, 0.7)`. -/
theorem normalize_color_two_channels_witness :
    normalize_color [mkRat 3 10, mkRat 7 10] = [0, 0, 0] :=
  normalize_color_two_channels [mkRat 3 10, mkRat 7 10] (by decide)

/-- `COLOR_MAPPINGS`: the legend table, in Python dict insertion order
(all 16 keys are distinct, so dict lookup and iteration agree with
association-list lookup and left-to-right scanning). -/
def color_mappings : List (List ℚ × String) :=
  [([1, mkRat 76 100, 0], "FYI"),
   ([mkRat 77 100, mkRat 98 100, mkRat 45 100], "Def"),
   ([mkRat 22 100, mkRat 9 10, 1], "Rec"),
   ([1, mkRat 38 100, 0], "Err"),
   ([mkRat 86 100, mkRat 67 100, 1], "Ref"),
   ([1, mkRat 75 100, 0], "FYI"),
   ([1, mkRat 77 100, 0], "FYI"),
   ([mkRat 97 100, mkRat 39 100, mkRat 39 100], "Err"),
   ([mkRat 76 100, mkRat 98 100, mkRat 45 100], "Def"),
   ([mkRat 78 100, mkRat 98 100, mkRat 45 100], "Def"),
   ([mkRat 21 100, mkRat 9 10, 1], "Rec"),
   ([mkRat 23 100, mkRat 9 10, 1], "Rec"),
   ([mkRat 96 100, mkRat 39 100, mkRat 39 100], "Err"),
   ([mkRat 98 100, mkRat 39 100, mkRat 39 100], "Err"),
   ([mkRat 85 100, mkRat 67 100, 1], "Ref"),
   ([mkRat 87 100, mkRat 67 100, 1], "Ref")]

/-- `tolerance = 0.15`. -/
def tolerance : ℚ := mkRat 15 100

/-- `all(abs(c1 - c2) <= tolerance for c1, c2 in zip(...))`. -/
def within_tolerance (a e : List ℚ) : Bool :=
  (a.zip e).all (fun p => decide (qabs (qsub p.1 p.2) ≤ tolerance))

/-- `map_color_to_type(color)`: normalize, then exact dict lookup, then
first fuzzy match in table order; `none` models Python's `None`
("unknown" in the spec's vocabulary). -/
def map_color_to_type (color : List ℚ) : Option String :=
  match color_mappings.lookup (normalize_color color) with
  | some t => some t
  | none =>
    match color_mappings.find? (fun p =>
        within_tolerance (normalize_color color) p.1) with
    | some p => some p.2
    | none => none

/-- The classifier as the spec states it: exact lookup in the legend
table, otherwise scan the table in its fixed order and return the first
entry every one of whose three channels differs from the normalized
color by at most `0.15`; otherwise unknown (`none`). -/
def classifySpec (color : List ℚ) : Option String :=
  match color_mappings.lookup (normalize_color color) with
  | some t => some t
  | none =>
    match color_mappings.find? (fun p => decide (∀ j < 3,
        |(normalize_color color).getD j 0 - p.1.getD j 0| ≤ 15 / 100)) with
    | some p => some p.2
    | none => none

theorem find?_congr_on {α : Type} (l : List α) (p q : α → Bool)
    (h : ∀ a ∈ l, p a = q a) : l.find? p = l.find? q := by
  induction l with
  | nil => rfl
  | cons a t ih =>
    rw [List.find?_cons, List.find?_cons, h a (List.mem_cons_self a t),
      ih (fun b hb => h b (List.mem_cons_of_mem a hb))]

theorem list_length_three {l : List ℚ} (h : l.length = 3) :
    ∃ a b c, l = [a, b, c] := by
  match l, h with
  | [a, b, c], _ => exact ⟨a, b, c, rfl⟩

theorem within_tolerance_iff (a b c d e f : ℚ) :
    within_tolerance [a, b, c] [d, e, f] = true ↔
      ∀ j < 3, |([a, b, c] : List ℚ).getD j 0 - ([d, e, f] : List ℚ).getD j 0|
        ≤ 15 / 100 := by
  have h15 : tolerance = 15 / 100 := by
    unfold tolerance; rw [mkRat_div]; norm_num
  unfold within_tolerance
  simp only [List.zip_cons_cons, List.zip_nil_right, List.all_cons,
    List.all_nil, Bool.and_true, Bool.and_eq_true, decide_eq_true_eq,
    qabs_eq, qsub_eq, h15]
  constructor
  · rintro ⟨h0, h1, h2⟩ j hj
    interval_cases j <;> simpa
  · intro h
    exact ⟨by simpa using h 0 (by omega), by simpa using h 1 (by omega),
      by simpa using h 2 (by omega)⟩

theorem color_mappings_entry_length : ∀ e ∈ color_mappings, e.1.length = 3 := by
  decide

/-- C4: the classifier agrees everywhere with the spec's description
(exact lookup first, then first-match fuzzy scan in fixed table order
with per-channel tolerance `0.15`, unknown when nothing is close); and
the four concrete classifications from the spec hold, with `none`
playing the role of "unknown". -/
theorem map_color_to_type_spec :
    (∀ color : List ℚ, map_color_to_type color = classifySpec color)
    ∧ map_color_to_type [1, mkRat 76 100, 0] = some "FYI"
    ∧ map_color_to_type [mkRat 77 100, mkRat 98 100, mkRat 45 100] = some "Def"
    ∧ map_color_to_type [mkRat 9 10, mkRat 85 100, mkRat 1 10] = some "FYI"
    ∧ map_color_to_type [mkRat 1 2, mkRat 1 2, mkRat 1 2] = none := by
  refine ⟨fun color => ?_, by decide, by decide, by decide, by decide⟩
  unfold map_color_to_type classifySpec
  rw [find?_congr_on color_mappings _ _ ?_]
  intro p hp
  obtain ⟨d, e, f, hde⟩ := list_length_three (color_mappings_entry_length p hp)
  obtain ⟨a, b, c, habc⟩ := list_length_three
    (normalize_color_length color)
  rw [habc, hde]
  rw [Bool.eq_iff_iff, within_tolerance_iff, decide_eq_true_eq]

/-! ### Quality filter: `is_quality_text` -/

/-- Does `needle` occur at the very front of `hay`? -/
def leadsWith : List Char → List Char → Bool
  | [], _ => true
  | _ :: _, [] => false
  | a :: as, b :: bs => a == b && leadsWith as bs

/-- Python's `needle in hay` on character lists: does `needle` occur as
a contiguous substring of `hay`? -/
def occursIn (needle : List Char) : List Char → Bool
  | [] => needle.isEmpty
  | c :: cs => leadsWith needle (c :: cs) || occursIn needle cs

/-- Python's `str.strip()`: drop whitespace from both ends. -/
def pyStrip (s : List Char) : List Char :=
  ((s.dropWhile Char.isWhitespace).reverse.dropWhile Char.isWhitespace).reverse

/-- Python's `str.lower()` (ASCII model). -/
def pyLower (s : List Char) : List Char := s.map Char.toLower

/-- Python's `str.isdigit()` (ASCII model): non-empty and all digits. -/
def pyIsDigit (s : List Char) : Bool := !s.isEmpty && s.all Char.isDigit

/-- `url_indicators`. -/
def url_indicators : List String :=
  ["http", "www.", ".com", ".org", ".gov", ".edu", "doi.org"]

/-- `artifacts`. -/
def artifacts : List String := ["page", "figure", "table", "appendix", "section"]

/-- `is_quality_text(text)`: the five early-return rejection checks of
the source, in order (short/empty, URL content, layout artifact, pure
number or minimal content, low letter share). -/
def is_quality_text (text : String) : Bool :=
  if text.toList.isEmpty = true ∨ (pyStrip text.toList).length < 2 then false
  else if url_indicators.any (fun ind =>
      occursIn ind.toList (pyStrip (pyLower text.toList))) = true then false
  else if pyStrip (pyLower text.toList) ∈ artifacts.map String.toList then false
  else if pyIsDigit (pyStrip text.toList) = true ∨
      (pyStrip text.toList).length < 3 then false
  else if 0 < text.toList.length ∧
      mkRat ((text.toList.filter Char.isAlpha).length : ℤ) text.toList.length <
        mkRat 3 10 then false
  else true

/-- C5: the filter rejects a text iff at least one of the five
independent checks fails — trimmed length under 2; a URL/domain
indicator occurring (case-insensitively) in the text; the trimmed text
equal (case-insensitively) to a layout-artifact word; the trimmed text
purely numeric or under 3 characters; or letter share below `0.3` — and
the four concrete examples from the spec behave as stated. -/
theorem is_quality_text_spec :
    (∀ text : String,
      is_quality_text text = false ↔
        ((pyStrip text.toList).length < 2
        ∨ (∃ ind ∈ url_indicators,
            occursIn ind.toList (pyStrip (pyLower text.toList)) = true)
        ∨ pyStrip (pyLower text.toList) ∈ artifacts.map String.toList
        ∨ pyIsDigit (pyStrip text.toList) = true
        ∨ (pyStrip text.toList).length < 3
        ∨ (0 < text.toList.length ∧
            ((text.toList.filter Char.isAlpha).length : ℚ) /
              (text.toList.length : ℚ) < 3 / 10)))
    ∧ is_quality_text "http://example.com/page" = false
    ∧ is_quality_text "Section" = false
    ∧ is_quality_text "42" = false
    ∧ is_quality_text
        "Multi-factor authentication requires two independent factors." = true := by
  refine ⟨fun text => ?_, by decide, by decide, by decide, by decide⟩
  have hdiv : ∀ L N : Nat,
      (mkRat (L : ℤ) N < mkRat 3 10) ↔ ((L : ℚ) / (N : ℚ) < 3 / 10) := by
    intro L N
    rw [mkRat_div, mkRat_div]
    push_cast
    rfl
  unfold is_quality_text
  split_ifs with h1 h2 h3 h4 h5
  · refine iff_of_true rfl ?_
    rcases h1 with h | h
    · left
      rw [List.isEmpty_iff] at h
      rw [h]
      decide
    · exact Or.inl h
  · refine iff_of_true rfl ?_
    rw [List.any_eq_true] at h2
    obtain ⟨ind, hind, hocc⟩ := h2
    exact Or.inr (Or.inl ⟨ind, hind, hocc⟩)
  · exact iff_of_true rfl (Or.inr (Or.inr (Or.inl h3)))
  · refine iff_of_true rfl ?_
    rcases h4 with h | h
    · exact Or.inr (Or.inr (Or.inr (Or.inl h)))
    · exact Or.inr (Or.inr (Or.inr (Or.inr (Or.inl h))))
  · exact iff_of_true rfl
      (Or.inr (Or.inr (Or.inr (Or.inr (Or.inr ⟨h5.1, (hdiv _ _).mp h5.2⟩)))))
  · refine iff_of_false (by simp) ?_
    intro hR
    rcases hR with h | ⟨ind, hind, hocc⟩ | h | h | h | ⟨hpos, hlt⟩
    · exact h1 (Or.inr h)
    · exact h2 (List.any_eq_true.mpr ⟨ind, hind, hocc⟩)
    · exact h3 h
    · exact h4 (Or.inl h)
    · exact h4 (Or.inr h)
    · exact h5 ⟨hpos, (hdiv _ _).mpr hlt⟩


/-! ### Scanner / orchestrator: `extract_pdf_highlights` -/

/-- `c == \' \' or c == \'\\t\'` -- characters collapsed by the first cleanup
regex. -/
def spaceTab (c : Char) : Bool := c == ' ' || c == '\t'

/-- One maximal-run collapse: every maximal run of characters
satisfying `p` is replaced by the single character `r` (models
`re.sub(class+, r, s)`). -/
def collapseRuns (p : Char → Bool) (r : Char) : List Char → List Char
  | [] => []
  | [c] => if p c then [r] else [c]
  | c :: d :: cs =>
    if p c && p d then collapseRuns p r (d :: cs)
    else if p c then r :: collapseRuns p r (d :: cs)
    else c :: collapseRuns p r (d :: cs)

/-- `str.strip()` on a whole string. -/
def pyStripS (s : String) : String := String.mk (pyStrip s.toList)

/-- The cleanup applied in `extract_text_from_rect`: runs of
spaces/tabs to one space, then runs of newlines to one space, then
strip. -/
def cleanText (s : String) : String :=
  pyStripS (String.mk (collapseRuns (fun c => c == '\n') ' '
    (collapseRuns spaceTab ' ' s.toList)))

/-- A highlight annotation as the scanner sees it, with every external
datum supplied as input: subtype check result, the two color-dict
entries, the vertex list, the bounding rect, and the word inventory
that `page.get_text("words", clip=rect)` returns for its rect (`none`
when that external call raises -- the inner `try` catches it). -/
structure Annot where
  is_highlight : Bool
  stroke : Option (List ℚ)
  fill : Option (List ℚ)
  vertices : List Point
  rect : Rect
  words : Option (List Word)
deriving DecidableEq

/-- Python's `annot.colors.get("stroke") or annot.colors.get("fill")`:
a missing or empty (falsy) stroke falls back to the fill entry. -/
def pyColorOr (stroke fill : Option (List ℚ)) : Option (List ℚ) :=
  match stroke with
  | some c => if c.isEmpty then fill else some c
  | none => fill

/-- Python truthiness of the color value (`if color`): present and
non-empty. -/
def pyTruthy (c : Option (List ℚ)) : Bool :=
  match c with
  | some l => !l.isEmpty
  | none => false

/-- `extract_text_from_rect(page, annot, rect)`: resolve the highlight
against the clipped word inventory, drop empty or low-quality text,
clean whitespace.  A failure of the external word fetch is caught by
the inner `try` and yields `""`. -/
def extract_text_from_rect (a : Annot) : String :=
  match a.words with
  | none => ""
  | some ws =>
    if (extract_annot a.vertices ws).toList.isEmpty = true ∨
        is_quality_text (extract_annot a.vertices ws) = false then ""
    else cleanText (extract_annot a.vertices ws)

/-- The output record (`highlight_data` dictionary). -/
structure HighlightRecord where
  page : Nat
  text : String
  color : Option (List ℚ)
  annotation_type : Option String
  x0 : ℚ
  y0 : ℚ
  x1 : ℚ
  y1 : ℚ
  highlight_area : ℚ
  text_length : Nat
deriving DecidableEq

/-- The body of the per-annotation loop: non-highlight annotations and
annotations whose stripped extracted text is empty produce no record;
otherwise the record is assembled.  `map_color_to_type` receives the
raw color (a missing color behaves like the empty tuple: both normalize
to black), and the stored `color` field is `None` for a falsy color.
`page_num` is the 0-based page index; the record stores it 1-based. -/
def processAnnot (page_num : Nat) (a : Annot) : Option HighlightRecord :=
  if a.is_highlight = true then
    if (pyStripS (extract_text_from_rect a)).toList.isEmpty = false then
      some {
        page := page_num + 1
        text := pyStripS (extract_text_from_rect a)
        color := if pyTruthy (pyColorOr a.stroke a.fill) = true then
            some (normalize_color ((pyColorOr a.stroke a.fill).getD []))
          else none
        annotation_type := map_color_to_type ((pyColorOr a.stroke a.fill).getD [])
        x0 := a.rect.x0
        y0 := a.rect.y0
        x1 := a.rect.x1
        y1 := a.rect.y1
        highlight_area := qmul (qsub a.rect.x1 a.rect.x0) (qsub a.rect.y1 a.rect.y0)
        text_length := (pyStripS (extract_text_from_rect a)).toList.length }
    else none
  else none

/-- One page of the scanned document.  The whole per-page loop runs in
one `try`: `annots` are the annotations the external layer yielded and
the loop processed before an optional external failure; `fails_after`
records that the page's processing then raised (caught and logged by
the `except` branch, which moves on to the next page).  Records already
appended before the failure stay appended: a Python list has no
rollback. -/
structure Page where
  annots : List Annot
  fails_after : Bool
deriving DecidableEq

/-- The records contributed by one page: the per-annotation loop over
the annotations processed before any failure. -/
def processPage (page_num : Nat) (p : Page) : List HighlightRecord :=
  p.annots.filterMap (processAnnot page_num)

/-- The `for page_num in range(len(doc))` loop. -/
def scanPages : Nat → List Page → List HighlightRecord
  | _, [] => []
  | page_num, p :: rest => processPage page_num p ++ scanPages (page_num + 1) rest

/-- `extract_pdf_highlights(pdf_path)`: `none` models `fitz.open`
raising (caught: the function logs and returns `[]`); otherwise the
page scan runs from index 0. -/
def extract_pdf_highlights (doc : Option (List Page)) : List HighlightRecord :=
  match doc with
  | none => []
  | some pages => scanPages 0 pages

/-- The text the resolver produces for an annotation (`""` when the
external word fetch failed). -/
def resolvedClip (a : Annot) : String :=
  match a.words with
  | none => ""
  | some ws => extract_annot a.vertices ws

/-- C8: a document that fails to open yields the empty record
sequence; the entry point is a total function of the open result, so no
exception propagates to the caller. -/
theorem extract_pdf_highlights_open_failure :
    extract_pdf_highlights none = [] := rfl

theorem mem_scanPages {r : HighlightRecord} :
    ∀ (n : Nat) (ps : List Page), r ∈ scanPages n ps →
      ∃ (k : Nat) (p : Page) (a : Annot), p ∈ ps ∧ a ∈ p.annots ∧
        processAnnot k a = some r := by
  intro n ps
  induction ps generalizing n with
  | nil => intro h; cases h
  | cons p rest ih =>
    intro h
    rw [scanPages, List.mem_append] at h
    rcases h with h | h
    · rw [processPage, List.mem_filterMap] at h
      obtain ⟨a, ha, hpa⟩ := h
      exact ⟨n, p, a, List.mem_cons_self p rest, ha, hpa⟩
    · obtain ⟨k, p2, a, hp2, ha, hpa⟩ := ih (n + 1) h
      exact ⟨k, p2, a, List.mem_cons_of_mem p hp2, ha, hpa⟩

theorem processAnnot_text {k : Nat} {a : Annot} {r : HighlightRecord}
    (h : processAnnot k a = some r) :
    r.text = pyStripS (extract_text_from_rect a) ∧
      (pyStripS (extract_text_from_rect a)).toList.isEmpty = false := by
  unfold processAnnot at h
  split_ifs at h
  all_goals cases Option.some.inj h
  all_goals exact ⟨rfl, by assumption⟩

/-- C7: every record returned by the extraction entry point has
non-empty text, and that text is the whitespace-cleaned form of a
resolver output that passed the quality filter; dually, an annotation
whose resolved text is empty or fails the quality filter produces no
record at all. -/
theorem records_quality_invariant :
    (∀ (doc : Option (List Page)) (r : HighlightRecord),
      r ∈ extract_pdf_highlights doc →
        r.text ≠ "" ∧ ∃ clip : String,
          is_quality_text clip = true ∧ r.text = pyStripS (cleanText clip))
    ∧ (∀ (page_num : Nat) (a : Annot),
        (resolvedClip a = "" ∨ is_quality_text (resolvedClip a) = false) →
          processAnnot page_num a = none) := by
  constructor
  · intro doc r hr
    match doc with
    | none => cases hr
    | some pages =>
      obtain ⟨k, p, a, _, _, hpa⟩ := mem_scanPages 0 pages hr
      obtain ⟨htext, hne⟩ := processAnnot_text hpa
      have hwords : ∃ ws, a.words = some ws := by
        match hws : a.words with
        | none =>
          rw [show extract_text_from_rect a = "" by
            unfold extract_text_from_rect; rw [hws]] at hne
          cases hne
        | some ws => exact ⟨ws, rfl⟩
      obtain ⟨ws, hws⟩ := hwords
      have hcase : extract_text_from_rect a =
          if (extract_annot a.vertices ws).toList.isEmpty = true ∨
              is_quality_text (extract_annot a.vertices ws) = false then ""
          else cleanText (extract_annot a.vertices ws) := by
        unfold extract_text_from_rect
        rw [hws]
      have hgood : ¬((extract_annot a.vertices ws).toList.isEmpty = true ∨
          is_quality_text (extract_annot a.vertices ws) = false) := by
        intro hbad
        rw [hcase, if_pos hbad] at hne
        cases hne
      have hext : extract_text_from_rect a =
          cleanText (extract_annot a.vertices ws) := by
        rw [hcase, if_neg hgood]
      constructor
      · intro hempty
        rw [← htext, hempty] at hne
        cases hne
      · refine ⟨extract_annot a.vertices ws, ?_, ?_⟩
        · rcases Bool.eq_false_or_eq_true (is_quality_text
            (extract_annot a.vertices ws)) with hq | hq
          · exact hq
          · exact absurd (Or.inr hq) hgood
        · rw [htext, hext]
  · intro page_num a h
    have hzero : extract_text_from_rect a = "" := by
      match hws : a.words with
      | none => unfold extract_text_from_rect; rw [hws]
      | some ws =>
        have hrc : resolvedClip a = extract_annot a.vertices ws := by
          unfold resolvedClip; rw [hws]
        rw [hrc] at h
        have hcase : extract_text_from_rect a =
            if (extract_annot a.vertices ws).toList.isEmpty = true ∨
                is_quality_text (extract_annot a.vertices ws) = false then ""
            else cleanText (extract_annot a.vertices ws) := by
          unfold extract_text_from_rect
          rw [hws]
        rw [hcase, if_pos]
        rcases h with h | h
        · left
          rw [h]
          decide
        · exact Or.inr h
    unfold processAnnot
    split_ifs with hh hs
    · exfalso
      rw [hzero] at hs
      cases hs
    · rfl
    · rfl

/-- A concrete highlight annotation: one quad fully covering the single
word "hello", light-blue (Rec) stroke color. -/
def w7annot : Annot :=
  { is_highlight := true
    stroke := some [mkRat 22 100, mkRat 9 10, 1]
    fill := none
    vertices := [⟨0, 0⟩, ⟨10, 0⟩, ⟨0, 10⟩, ⟨10, 10⟩]
    rect := ⟨0, 0, 10, 10⟩
    words := some [⟨0, 0, 10, 10, "hello"⟩] }

/-- A one-page document containing only `w7annot`. -/
def w7doc : Option (List Page) := some [⟨[w7annot], false⟩]

/-- The record `w7annot` produces. -/
def w7rec : HighlightRecord :=
  { page := 1
    text := "hello"
    color := some [mkRat 22 100, mkRat 9 10, 1]
    annotation_type := some "Rec"
    x0 := 0
    y0 := 0
    x1 := 10
    y1 := 10
    highlight_area := 100
    text_length := 5 }

/-- A degenerate highlight annotation resolving to the empty string. -/
def w7bad : Annot :=
  { is_highlight := true
    stroke := none
    fill := none
    vertices := []
    rect := ⟨0, 0, 0, 0⟩
    words := some [] }

/-- C7 witness: the concrete record of `w7doc` is in the output and
satisfies the invariant, and the degenerate annotation produces no
record. -/
theorem records_quality_invariant_witness :
    (w7rec.text ≠ "" ∧ ∃ clip : String,
      is_quality_text clip = true ∧ w7rec.text = pyStripS (cleanText clip))
    ∧ processAnnot 0 w7bad = none :=
  ⟨records_quality_invariant.1 w7doc w7rec (by decide),
   records_quality_invariant.2 0 w7bad (Or.inl (by decide))⟩

/-- A second concrete highlight annotation (gold FYI color over the
word "world"). -/
def c9annot2 : Annot :=
  { is_highlight := true
    stroke := some [1, mkRat 76 100, 0]
    fill := none
    vertices := [⟨0, 0⟩, ⟨10, 0⟩, ⟨0, 10⟩, ⟨10, 10⟩]
    rect := ⟨0, 0, 10, 10⟩
    words := some [⟨0, 0, 10, 10, "world"⟩] }

/-- A page that raises after its first annotation has been processed
(the per-page `except` catches it and the scan moves on). -/
def c9failingPage : Page := ⟨[w7annot], true⟩

/-- A document whose first page fails mid-scan and whose second page is
fine. -/
def c9doc : Option (List Page) := some [c9failingPage, ⟨[c9annot2], false⟩]

/-- C9 counterexample: page 1 of `c9doc` fails while its annotations
are being processed, yet the extraction still returns the record that
page 1 appended before the failure — the failing page does contribute a
record, contrary to the claim. -/
theorem failing_page_contributes_record :
    c9failingPage.fails_after = true
    ∧ (extract_pdf_highlights c9doc).map HighlightRecord.page = [1, 2]
    ∧ (extract_pdf_highlights c9doc).map HighlightRecord.text =
        ["hello", "world"] :=
  ⟨rfl, by decide, by decide⟩

theorem scanPages_flag_irrelevant (n : Nat) (ps1 : List Page)
    (annots : List Annot) (ps2 : List Page) :
    scanPages n (ps1 ++ Page.mk annots true :: ps2) =
      scanPages n (ps1 ++ Page.mk annots false :: ps2) := by
  induction ps1 generalizing n with
  | nil => rfl
  | cons p rest ih =>
    rw [List.cons_append, List.cons_append, scanPages, scanPages, ih (n + 1)]

/-- C9 amended: a failure while processing one page's annotations is
caught; the records of annotations processed before the failure are
kept (the page's failure flag never changes the output), the rest of
that page contributes nothing, and the scan continues with the pages
after it, so earlier and later pages' records are returned unchanged;
only a failure to open yields the aborted (empty) extraction. -/
theorem page_failure_policy :
    (∀ (ps1 : List Page) (annots : List Annot) (ps2 : List Page),
      extract_pdf_highlights (some (ps1 ++ Page.mk annots true :: ps2)) =
        extract_pdf_highlights (some (ps1 ++ Page.mk annots false :: ps2)))
    ∧ (∀ (page_num : Nat) (annots : List Annot),
        processPage page_num (Page.mk annots true) =
          annots.filterMap (processAnnot page_num))
    ∧ extract_pdf_highlights none = [] :=
  ⟨fun ps1 annots ps2 => scanPages_flag_irrelevant 0 ps1 annots ps2,
   fun _ _ => rfl, rfl⟩

end TCAnnex
